import Mathlib

/-!
List creation app: the list-partitioning state machine of `src/App.js`.

A shallow embedding of the React component `App`.  The seven `useState` cells
become the fields of `State`; every event handler becomes a function from the
state it closes over to the state its setters produce.

Modelling conventions.

* List numbers are integers (`Int`): the values `Number(key)` of the keys of
  `groupedLists`.  JavaScript numbers are doubles; comparison, `Math.max` and
  the sign of a difference are exact on them, while the sum `Math.max(...) + 1`
  is rounded to the nearest double, which `roundToDouble` computes.  The object
  `groupedLists` is an association list from list number to item array with
  "first entry wins" lookup.  The association list keeps keys in insertion
  order, while JavaScript enumerates integer-like keys in ascending order;
  `Object.keys` is only ever consumed by `Math.max` and by a numeric sort, so no
  definition below observes the difference.
* An item is a record with the four fields delivered by the data source and the
  two provenance fields `originalList` / `originalListNumber` that
  `moveItemToNewList` attaches.  `none` stands for a field that is absent or
  `undefined`.  The identity `id` is only ever compared with `!==`.
* A handler that can throw, or that can leave the integer key domain, returns
  `Except Fault State`.  The result `typeError` means that an exception was
  thrown before any state setter ran, so the component state is still the
  argument state.  The result `nonIntegerKey` means that the handler ran to its
  end and left a grouping with a key that is not an integer.
-/

namespace ListCreation

/-- An item of the data source, with the two optional provenance fields. -/
structure Item where
  id : Nat
  name : String
  scientific_name : String
  list_number : Int
  originalList : Option Nat
  originalListNumber : Option Int
deriving DecidableEq, Repr

/-- The object `groupedLists`: list number to array of items. -/
abbrev Grouping := List (Int × List Item)

/-- The seven `useState` cells of `App`. -/
structure State where
  groupedLists : Grouping
  loading : Bool
  error : Bool
  selectedLists : List Int
  isCreatingList : Bool
  newList : List Item
  errorMessage : String
deriving DecidableEq, Repr

/-- The values of the `useState` initialisers. -/
def initialState : State :=
  { groupedLists := [], loading := true, error := false, selectedLists := [],
    isCreatingList := false, newList := [], errorMessage := "" }

/-- Why a handler produced no next state. -/
inductive Fault where
  /-- A `TypeError`: a method was called on `undefined`. -/
  | typeError
  /-- The handler stores a list under the key `"undefined"` or `"-Infinity"`, which
  is outside the integer key domain. -/
  | nonIntegerKey
deriving DecidableEq, Repr

/-- The two modes of the state machine, as rendered from `isCreatingList`. -/
inductive Mode where
  | Browsing
  | Merging
deriving DecidableEq, Repr

/-- The mode the component renders: `isCreatingList ? merging view : browsing view`. -/
def State.mode (s : State) : Mode :=
  if s.isCreatingList then Mode.Merging else Mode.Browsing

/-! ## Object and array primitives -/

/-- Property read `obj[k]`; `none` is `undefined`. -/
def getKey (g : Grouping) (k : Int) : Option (List Item) :=
  match g with
  | [] => none
  | (k0, v0) :: rest => if k0 = k then some v0 else getKey rest k

/-- Property write `obj[k] = v` on a copy of `obj`: an existing key keeps its
place, a new key is added after the others. -/
def setKey (g : Grouping) (k : Int) (v : List Item) : Grouping :=
  match g with
  | [] => [(k, v)]
  | (k0, v0) :: rest => if k0 = k then (k0, v) :: rest else (k0, v0) :: setKey rest k v

/-- The keys: `Object.keys(obj).map(Number)`. -/
def objectKeys (g : Grouping) : List Int :=
  g.map Prod.fst

/-- The numeric maximum `Math.max(...xs)`; `none` stands for `-Infinity`, the
value on no arguments. -/
def mathMax (xs : List Int) : Option Int :=
  match xs with
  | [] => none
  | x :: rest =>
    match mathMax rest with
    | none => some x
    | some m => some (max x m)

/-- The number of halvings that bring `a` below 2^53: the count of low bits that a
double cannot hold.  The fuel is never exhausted when it is at least `a`. -/
def excessBits (fuel a : Nat) : Nat :=
  match fuel with
  | 0 => 0
  | fuel1 + 1 => if a < 9007199254740992 then 0 else excessBits fuel1 (a / 2) + 1

/-- The double nearest to the integer `x`, ties going to the even significand: the
value a JavaScript arithmetic operation returns when its exact result is `x`.
The 53 leading bits are kept and the `excessBits` below them are rounded. -/
def roundToDouble (x : Int) : Int :=
  let a := x.natAbs
  let e := excessBits a a
  let q := a / 2 ^ e
  let r := a % 2 ^ e
  let half := 2 ^ (e - 1)
  let q1 := if half < r ∨ (r = half ∧ q % 2 = 1) then q + 1 else q
  if e = 0 then x else Int.sign x * ((q1 * 2 ^ e : Nat) : Int)

/-- The numeric sort `[...xs].sort((a, b) => a - b)`: the ascending rearrangement
of `xs`. -/
def sortNumeric (xs : List Int) : List Int :=
  xs.insertionSort (fun a b => a ≤ b)

/-- All item identities held by the lists of a grouping, list by list. -/
def groupingIds (g : Grouping) : List Nat :=
  match g with
  | [] => []
  | (_, v) :: rest => v.map Item.id ++ groupingIds rest

/-- All item identities of a state: those of the grouping, then those of the draft. -/
def State.allIds (s : State) : List Nat :=
  groupingIds s.groupedLists ++ s.newList.map Item.id

/-! ## Loading -/

/-- One iteration of lodash `groupBy(collection, 'list_number')`: push the item on
the array under its key, creating the array when the key is new. -/
def groupByStep (acc : Grouping) (item : Item) : Grouping :=
  match getKey acc item.list_number with
  | some l => setKey acc item.list_number (l ++ [item])
  | none => setKey acc item.list_number [item]

/-- The lodash call `groupBy(data.lists, 'list_number')`. -/
def groupBy (lists : List Item) : Grouping :=
  lists.foldl groupByStep []

/-- The synchronous start of `fetchLists`: `setLoading(true); setError(false)`. -/
def fetchListsBegin (s : State) : State :=
  { s with loading := true, error := false }

/-- The completion of `fetchLists`.  `some lists` is a successful response
carrying `data.lists`; `none` is a network error or a response that is not ok. -/
def fetchListsSettle (response : Option (List Item)) (s : State) : State :=
  match response with
  | some lists => { s with groupedLists := groupBy lists, loading := false }
  | none => { s with error := true, loading := false }

/-- The handler `fetchLists`, from call to completion. -/
def fetchLists (response : Option (List Item)) (s : State) : State :=
  fetchListsSettle response (fetchListsBegin s)

/-! ## Event handlers -/

/-- The handler `handleCheckList(listNumber)`. -/
def handleCheckList (listNumber : Int) (s : State) : State :=
  if listNumber ∈ s.selectedLists then
    { s with selectedLists := s.selectedLists.filter (fun num => num != listNumber),
             errorMessage := "" }
  else
    { s with selectedLists := s.selectedLists ++ [listNumber],
             errorMessage := "" }

/-- The handler `handleCreateNewList()`. -/
def handleCreateNewList (s : State) : State :=
  if s.selectedLists.length ≠ 2 then
    { s with errorMessage := "You should select exactly 2 lists to create a new list" }
  else
    { s with selectedLists := sortNumeric s.selectedLists,
             isCreatingList := true,
             newList := [] }

/-- The handler `moveItemToNewList(item, fromListIndex)`.  When
`selectedLists[fromListIndex]` is `undefined` or names no list, the call
`updatedGroupedLists[listNumber].filter` throws before any setter runs. -/
def moveItemToNewList (item : Item) (fromListIndex : Nat) (s : State) : Except Fault State :=
  match s.selectedLists[fromListIndex]? with
  | none => Except.error Fault.typeError
  | some listNumber =>
    match getKey s.groupedLists listNumber with
    | none => Except.error Fault.typeError
    | some l =>
      Except.ok
        { s with
          groupedLists :=
            setKey s.groupedLists listNumber (l.filter (fun listItem => listItem.id != item.id)),
          newList :=
            s.newList ++
              [{ item with originalList := some fromListIndex,
                           originalListNumber := some listNumber }] }

/-- The handler `moveItemFromNewList(item)`.  An item without
`originalListNumber` would be pushed under the key `"undefined"`, which the
integer key domain does not contain. -/
def moveItemFromNewList (item : Item) (s : State) : Except Fault State :=
  let updatedNewList := s.newList.filter (fun listItem => listItem.id != item.id)
  match item.originalListNumber with
  | none => Except.error Fault.nonIntegerKey
  | some listNumber =>
    let target :=
      match getKey s.groupedLists listNumber with
      | some l => l
      | none => []
    Except.ok
      { s with
        newList := updatedNewList,
        groupedLists := setKey s.groupedLists listNumber (target ++ [item]) }

/-- The handler `handleCancel()` together with the completion of the reload it
starts. -/
def handleCancel (response : Option (List Item)) (s : State) : State :=
  fetchListsSettle response
    { fetchListsBegin s with isCreatingList := false, selectedLists := [], newList := [] }

/-- The object written for each draft item by `handleUpdate`:
`{...item, list_number: newListNumber, originalList: undefined, originalListNumber: undefined}`. -/
def relabel (newListNumber : Int) (item : Item) : Item :=
  { item with list_number := newListNumber, originalList := none, originalListNumber := none }

/-- The handler `handleUpdate()`.  The sum `Math.max(...listNumbers) + 1` is a
double sum.  On a grouping without keys `Math.max()` is `-Infinity`, so is
`newListNumber`, and the list is stored under the key `"-Infinity"`, which the
integer key domain does not contain. -/
def handleUpdate (s : State) : Except Fault State :=
  let listNumbers := objectKeys s.groupedLists
  match mathMax listNumbers with
  | none => Except.error Fault.nonIntegerKey
  | some m =>
    let newListNumber := roundToDouble (m + 1)
    Except.ok
      { s with
        groupedLists := setKey s.groupedLists newListNumber (s.newList.map (relabel newListNumber)),
        isCreatingList := false,
        selectedLists := [],
        newList := [] }

/-- The render-time value `listNumbers`:
`Object.keys(groupedLists).map(Number).sort((a, b) => a - b)`. -/
def listNumbers (s : State) : List Int :=
  sortNumeric (objectKeys s.groupedLists)

/-! ## The state machine driven by the rendered controls -/

/-- The events a user can raise; each constructor names the handler it invokes. -/
inductive Action where
  /-- A checkbox change: `handleCheckList(listNumber)`. -/
  | toggleSelection (listNumber : Int)
  /-- The button "Create a new list": `handleCreateNewList()`. -/
  | startMerge
  /-- An arrow button of a source list: `moveItemToNewList(item, fromListIndex)`. -/
  | moveToDraft (item : Item) (fromListIndex : Nat)
  /-- An arrow button of the new list: `moveItemFromNewList(item)`. -/
  | moveFromDraft (item : Item)
  /-- The button "Update": `handleUpdate()`. -/
  | commit
  /-- The button "Cancel": `handleCancel()`, with the outcome of its reload. -/
  | cancel (response : Option (List Item))
deriving DecidableEq, Repr

/-- One event.  The checkboxes are rendered by the browsing view only, so a toggle
is an event of a browsing state; the other handlers are applied in any mode.
`none` means that the event yields no next state: the control is not rendered
or the handler raised a fault. -/
def step (a : Action) (s : State) : Option State :=
  match a with
  | Action.toggleSelection listNumber =>
    if s.isCreatingList then none else some (handleCheckList listNumber s)
  | Action.startMerge => some (handleCreateNewList s)
  | Action.moveToDraft item fromListIndex => (moveItemToNewList item fromListIndex s).toOption
  | Action.moveFromDraft item => (moveItemFromNewList item s).toOption
  | Action.commit => (handleUpdate s).toOption
  | Action.cancel response => some (handleCancel response s)

/-- A sequence of events, each applied to the state the previous one left; it ends
without a state at the first event that yields none. -/
def run (actions : List Action) (s : State) : Option State :=
  match actions with
  | [] => some s
  | a :: rest =>
    match step a s with
    | none => none
    | some s1 => run rest s1

/-- The arrow button that raises `moveItemToNewList(item, fromListIndex)` is rendered
for the items of `groupedLists[selectedLists[fromListIndex]]` and for no others. -/
def rendersToDraft (item : Item) (fromListIndex : Nat) (s : State) : Bool :=
  match s.selectedLists[fromListIndex]? with
  | none => false
  | some listNumber =>
    match getKey s.groupedLists listNumber with
    | none => false
    | some l => decide (item ∈ l)

/-- The arrow buttons that raise `moveItemFromNewList(item)` are rendered for the
items of `newList` and for no others. -/
def rendersFromDraft (item : Item) (s : State) : Bool :=
  decide (item ∈ s.newList)

/-- The move and commit events, raised from a rendered control: a move to the draft
of an item shown in its source list, a move back of an item shown in the draft,
or a commit. -/
def isMoveOrCommit (a : Action) (s : State) : Bool :=
  match a with
  | Action.moveToDraft item fromListIndex => rendersToDraft item fromListIndex s
  | Action.moveFromDraft item => rendersFromDraft item s
  | Action.commit => true
  | _ => false

/-- A sequence of move and commit events, each raised from a rendered control of the
state the previous one left. -/
def runMoves (actions : List Action) (s : State) : Option State :=
  match actions with
  | [] => some s
  | a :: rest =>
    if isMoveOrCommit a s then
      match step a s with
      | none => none
      | some s1 => runMoves rest s1
    else none

/-- The property of the selection that the events maintain: no list number is
selected twice, and while a merge is in progress the selection is a pair in
strictly ascending order. -/
def SelectionInv (s : State) : Prop :=
  s.selectedLists.Nodup ∧
  (s.isCreatingList = true → ∃ a b, s.selectedLists = [a, b] ∧ a < b)

/-- Every item of the draft records the list number it was taken from. -/
def DraftProvenance (s : State) : Prop :=
  ∀ d ∈ s.newList, ∃ listNumber, d.originalListNumber = some listNumber

/-- The number of commits in a sequence of events. -/
def commitCount (actions : List Action) : Nat :=
  match actions with
  | [] => 0
  | Action.commit :: rest => commitCount rest + 1
  | _ :: rest => commitCount rest

/-- The list numbers of a state, those of the keys and those recorded in the draft,
stay safe integers over `c` further commits: each is above -2^53 and is at most
2^53 after `c` is added. -/
def KeysWithin (c : Nat) (s : State) : Prop :=
  (∀ k ∈ objectKeys s.groupedLists, -9007199254740992 < k ∧ k + c ≤ 9007199254740992) ∧
  (∀ d ∈ s.newList, ∃ listNumber, d.originalListNumber = some listNumber ∧
    -9007199254740992 < listNumber ∧ listNumber + c ≤ 9007199254740992)

/-! ## Example states -/

/-- A browsing state with three selected lists. -/
def exampleOverSelected : State :=
  { initialState with loading := false, selectedLists := [1, 2, 3] }

/-- A browsing state with the two lists 3 and 1 selected, in that order. -/
def exampleSelected31 : State :=
  { initialState with loading := false, selectedLists := [3, 1] }

/-- The item A of list 1. -/
def itemA : Item :=
  { id := 1, name := "A", scientific_name := "a", list_number := 1,
    originalList := none, originalListNumber := none }

/-- The item B of list 1. -/
def itemB : Item :=
  { id := 2, name := "B", scientific_name := "b", list_number := 1,
    originalList := none, originalListNumber := none }

/-- The item C of list 2. -/
def itemC : Item :=
  { id := 3, name := "C", scientific_name := "c", list_number := 2,
    originalList := none, originalListNumber := none }

/-- The state after loading the source items A, B, C: lists 1 = A, B and 2 = C. -/
def exampleLoaded : State :=
  fetchLists (some [itemA, itemB, itemC]) initialState

/-- The loaded state after selecting lists 1 and 2 and starting the merge. -/
def exampleMerging : State :=
  handleCreateNewList (handleCheckList 2 (handleCheckList 1 exampleLoaded))

/-- A state whose grouping has the keys 10 and 9, written in that order. -/
def exampleKeys109 : State :=
  { initialState with loading := false, groupedLists := [(10, []), (9, [])] }

/-- The item A as staged from slot 0, list 1. -/
def stagedA : Item :=
  { itemA with originalList := some 0, originalListNumber := some 1 }

/-- The item C as staged from slot 1, list 2. -/
def stagedC : Item :=
  { itemC with originalList := some 1, originalListNumber := some 2 }

/-- The merging state after A and C have been moved to the draft. -/
def exampleStaged : State :=
  { exampleMerging with
    groupedLists := [(1, [itemB]), (2, [])],
    newList := [stagedA, stagedC] }

/-- A merging state over the list numbers 1, 2 and 5 with A in the draft. -/
def exampleKeys125 : State :=
  { exampleMerging with
    groupedLists := [(1, [itemB]), (2, [itemC]), (5, [])],
    newList := [stagedA] }

/-- The loaded state with list 1 selected, still browsing. -/
def exampleBrowsing : State :=
  handleCheckList 1 exampleLoaded

/-- The item D of the list numbered 2^53. -/
def itemD : Item :=
  { id := 4, name := "D", scientific_name := "d", list_number := 9007199254740992,
    originalList := none, originalListNumber := none }

/-- The state after loading the source items A and D, with lists 1 and 2^53 selected
and the merge started. -/
def exampleUnsafe : State :=
  handleCreateNewList
    (handleCheckList 9007199254740992
      (handleCheckList 1 (fetchLists (some [itemA, itemD]) initialState)))

/-- The state `exampleUnsafe` after A has been moved to the draft. -/
def exampleUnsafeStaged : State :=
  { exampleUnsafe with
    groupedLists := [(1, []), (9007199254740992, [itemD])],
    newList := [stagedA] }

/-! ## Lemmas on the primitives -/

theorem getKey_setKey_self (g : Grouping) (k : Int) (v : List Item) :
    getKey (setKey g k v) k = some v := by
  induction g with
  | nil => simp [setKey, getKey]
  | cons p rest ih =>
    obtain ⟨k0, v0⟩ := p
    by_cases h : k0 = k
    · simp [setKey, getKey, h]
    · simp [setKey, getKey, h, ih]

theorem getKey_setKey_ne (g : Grouping) (k k1 : Int) (v : List Item) (hne : k1 ≠ k) :
    getKey (setKey g k v) k1 = getKey g k1 := by
  induction g with
  | nil =>
    have : ¬ k = k1 := fun h => hne h.symm
    simp [setKey, getKey, this]
  | cons p rest ih =>
    obtain ⟨k0, v0⟩ := p
    by_cases h : k0 = k
    · have : ¬ k = k1 := fun h => hne h.symm
      subst h
      simp [setKey, getKey, this]
    · by_cases h1 : k0 = k1
      · subst h1
        simp [setKey, getKey, h]
      · simp [setKey, getKey, h, h1, ih]

theorem getKey_eq_none_iff (g : Grouping) (k : Int) :
    getKey g k = none ↔ k ∉ objectKeys g := by
  induction g with
  | nil => simp [getKey, objectKeys]
  | cons p rest ih =>
    obtain ⟨k0, v0⟩ := p
    by_cases h : k0 = k
    · simp [getKey, objectKeys, h]
    · have h2 : ¬ k = k0 := fun e => h e.symm
      simp only [objectKeys] at ih
      simp [getKey, objectKeys, h, h2, ih]

theorem setKey_of_absent (g : Grouping) (k : Int) (v : List Item) (h : getKey g k = none) :
    setKey g k v = g ++ [(k, v)] := by
  induction g with
  | nil => simp [setKey]
  | cons p rest ih =>
    obtain ⟨k0, v0⟩ := p
    by_cases h0 : k0 = k
    · simp [getKey, h0] at h
    · simp only [getKey, h0, if_false] at h
      simp [setKey, h0, ih h]

theorem objectKeys_setKey_of_present (g : Grouping) (k : Int) (v l : List Item)
    (h : getKey g k = some l) : objectKeys (setKey g k v) = objectKeys g := by
  induction g with
  | nil => simp [getKey] at h
  | cons p rest ih =>
    obtain ⟨k0, v0⟩ := p
    by_cases h0 : k0 = k
    · simp [setKey, objectKeys, h0]
    · simp only [getKey, h0, if_false] at h
      simp only [objectKeys] at ih
      simp [setKey, objectKeys, h0, ih h]

theorem mathMax_eq_none_iff (xs : List Int) : mathMax xs = none ↔ xs = [] := by
  cases xs with
  | nil => simp [mathMax]
  | cons x rest =>
    cases h : mathMax rest <;> simp [mathMax, h]

theorem mathMax_spec (xs : List Int) (m : Int) (h : mathMax xs = some m) :
    m ∈ xs ∧ ∀ x ∈ xs, x ≤ m := by
  induction xs generalizing m with
  | nil => simp [mathMax] at h
  | cons x rest ih =>
    cases hr : mathMax rest with
    | none =>
      have hnil : rest = [] := (mathMax_eq_none_iff rest).1 hr
      simp only [mathMax, hr, Option.some.injEq] at h
      subst h; subst hnil
      simp
    | some m0 =>
      simp only [mathMax, hr, Option.some.injEq] at h
      obtain ⟨hm, hle⟩ := ih m0 hr
      subst h
      refine ⟨?_, ?_⟩
      · rcases le_total x m0 with hx | hx
        · simp [max_eq_right hx, hm]
        · simp [max_eq_left hx]
      · intro y hy
        rcases List.mem_cons.1 hy with rfl | hy
        · exact le_max_left _ _
        · exact le_trans (hle y hy) (le_max_right _ _)

theorem sortNumeric_sorted (xs : List Int) : List.Sorted (fun a b => a ≤ b) (sortNumeric xs) :=
  List.sorted_insertionSort (fun a b : Int => a ≤ b) xs

theorem sortNumeric_perm (xs : List Int) : List.Perm (sortNumeric xs) xs :=
  List.perm_insertionSort (fun a b : Int => a ≤ b) xs

theorem sortNumeric_pair (a b : Int) : sortNumeric [a, b] = [min a b, max a b] := by
  rcases le_total a b with h | h
  · by_cases hab : a = b
    · subst hab; simp [sortNumeric]
    · simp [sortNumeric, List.insertionSort, List.orderedInsert, h, min_eq_left h, max_eq_right h]
  · by_cases hab : a = b
    · subst hab; simp [sortNumeric]
    · have hlt : ¬ a ≤ b := fun h2 => hab (le_antisymm h2 h)
      simp [sortNumeric, List.insertionSort, List.orderedInsert, hlt, min_eq_right h, max_eq_left h]

theorem getKey_groupByStep (acc : Grouping) (item : Item) (k : Int) :
    getKey (groupByStep acc item) k =
      if item.list_number = k then
        (match getKey acc k with
          | some l => some (l ++ [item])
          | none => some [item])
      else getKey acc k := by
  by_cases h : item.list_number = k
  · subst h
    simp only [if_true]
    unfold groupByStep
    cases hg : getKey acc item.list_number <;> simp [getKey_setKey_self]
  · simp only [h, if_false]
    have hk : k ≠ item.list_number := fun e => h e.symm
    unfold groupByStep
    cases hg : getKey acc item.list_number <;> simp [getKey_setKey_ne _ _ _ _ hk]

theorem getKey_foldl_groupByStep (lists : List Item) (acc : Grouping) (k : Int) :
    getKey (lists.foldl groupByStep acc) k =
      match getKey acc k with
      | some l => some (l ++ lists.filter (fun item => item.list_number == k))
      | none =>
        if lists.filter (fun item => item.list_number == k) = [] then none
        else some (lists.filter (fun item => item.list_number == k)) := by
  induction lists generalizing acc with
  | nil =>
    cases hg : getKey acc k <;> simp [hg]
  | cons x xs ih =>
    rw [List.foldl_cons, ih, getKey_groupByStep]
    by_cases h : x.list_number = k
    · cases hg : getKey acc k <;> simp [h, List.filter_cons]
    · cases hg : getKey acc k <;> simp [h, List.filter_cons]

theorem groupingIds_append (g1 g2 : Grouping) :
    groupingIds (g1 ++ g2) = groupingIds g1 ++ groupingIds g2 := by
  induction g1 with
  | nil => simp [groupingIds]
  | cons p rest ih =>
    obtain ⟨k0, v0⟩ := p
    simp [groupingIds, ih]

theorem groupingIds_setKey_of_absent (g : Grouping) (k : Int) (v : List Item)
    (h : getKey g k = none) :
    groupingIds (setKey g k v) = groupingIds g ++ v.map Item.id := by
  rw [setKey_of_absent g k v h, groupingIds_append]
  simp [groupingIds]

theorem groupingIds_setKey_of_present (g : Grouping) (k : Int) (l : List Item)
    (h : getKey g k = some l) :
    ∃ pre post, groupingIds g = pre ++ (l.map Item.id ++ post) ∧
      ∀ v, groupingIds (setKey g k v) = pre ++ (v.map Item.id ++ post) := by
  induction g with
  | nil => simp [getKey] at h
  | cons p rest ih =>
    obtain ⟨k0, v0⟩ := p
    by_cases h0 : k0 = k
    · simp only [getKey, h0, if_true, Option.some.injEq] at h
      subst h
      exact ⟨[], groupingIds rest, by simp [groupingIds], by intro v; simp [setKey, h0, groupingIds]⟩
    · simp only [getKey, h0, if_false] at h
      obtain ⟨pre, post, h1, h2⟩ := ih h
      refine ⟨v0.map Item.id ++ pre, post, ?_, ?_⟩
      · simp [groupingIds, h1]
      · intro v
        simp [setKey, h0, groupingIds, h2 v]

theorem filter_id_perm (l : List Item) (item : Item) (hin : item ∈ l)
    (hnd : (l.map Item.id).Nodup) :
    List.Perm (l.filter (fun listItem => listItem.id != item.id) ++ [item]) l := by
  have hl : l.Nodup := List.Nodup.of_map _ hnd
  have hf : l.filter (fun listItem => listItem.id != item.id) = l.erase item := by
    rw [List.Nodup.erase_eq_filter hl]
    apply List.filter_congr
    intro x hx
    have hinj : x.id = item.id ↔ x = item :=
      ⟨fun e => List.inj_on_of_nodup_map hnd hx hin e, fun e => by rw [e]⟩
    by_cases hxi : x = item
    · subst hxi
      simp
    · have hne : x.id ≠ item.id := fun e => hxi (hinj.1 e)
      have h1 : (x.id != item.id) = true := bne_iff_ne.2 hne
      have h2 : (x != item) = true := bne_iff_ne.2 hxi
      rw [h1, h2]
  rw [hf]
  exact List.perm_append_comm.trans (List.perm_cons_erase hin).symm

theorem filter_id_of_not_mem (l : List Item) (i : Nat) (h : i ∉ l.map Item.id) :
    l.filter (fun listItem => listItem.id != i) = l := by
  apply List.filter_eq_self.2
  intro x hx
  have : x.id ≠ i := fun e => h (e ▸ List.mem_map_of_mem Item.id hx)
  simpa [bne] using this

theorem nodup_ids_of_getKey (g : Grouping) (k : Int) (l : List Item)
    (h : getKey g k = some l) (hnd : (groupingIds g).Nodup) : (l.map Item.id).Nodup := by
  obtain ⟨pre, post, h1, _⟩ := groupingIds_setKey_of_present g k l h
  rw [h1] at hnd
  exact (List.nodup_append.1 (List.nodup_append.1 hnd).2.1).1

theorem mem_groupingIds_of_getKey (g : Grouping) (k : Int) (l : List Item) (item : Item)
    (h : getKey g k = some l) (hin : item ∈ l) : item.id ∈ groupingIds g := by
  obtain ⟨pre, post, h1, _⟩ := groupingIds_setKey_of_present g k l h
  rw [h1]
  simp only [List.mem_append, List.mem_map]
  exact Or.inr (Or.inl ⟨item, hin, rfl⟩)

theorem groupingIds_groupByStep (acc : Grouping) (item : Item) :
    List.Perm (groupingIds (groupByStep acc item)) (groupingIds acc ++ [item.id]) := by
  unfold groupByStep
  cases hg : getKey acc item.list_number with
  | none =>
    simp only [groupingIds_setKey_of_absent _ _ _ hg, List.map_cons, List.map_nil]
    exact List.Perm.refl _
  | some l =>
    obtain ⟨pre, post, h1, h2⟩ := groupingIds_setKey_of_present _ _ _ hg
    rw [List.perm_iff_count]
    intro a
    simp only [h1, h2, List.map_append, List.map_cons, List.map_nil, List.count_append]
    omega

theorem groupingIds_foldl_groupByStep (lists : List Item) (acc : Grouping) :
    List.Perm (groupingIds (lists.foldl groupByStep acc))
      (groupingIds acc ++ lists.map Item.id) := by
  induction lists generalizing acc with
  | nil => simp
  | cons x xs ih =>
    rw [List.foldl_cons]
    refine (ih (groupByStep acc x)).trans ?_
    rw [List.map_cons]
    refine ((groupingIds_groupByStep acc x).append_right _).trans ?_
    simp

theorem excessBits_of_lt (a : Nat) (h : a < 9007199254740992) : excessBits a a = 0 := by
  cases a with
  | zero => rfl
  | succ n =>
    show (if n + 1 < 9007199254740992 then 0 else _) = 0
    rw [if_pos h]

theorem roundToDouble_exact (x : Int) (hlo : -9007199254740992 ≤ x)
    (hhi : x ≤ 9007199254740992) : roundToDouble x = x := by
  by_cases h1 : x = 9007199254740992
  · subst h1
    rfl
  · by_cases h2 : x = -9007199254740992
    · subst h2
      rfl
    · have ha : x.natAbs < 9007199254740992 := by omega
      simp only [roundToDouble, excessBits_of_lt _ ha, if_true]

theorem mem_objectKeys_of_getKey (g : Grouping) (k : Int) (l : List Item)
    (h : getKey g k = some l) : k ∈ objectKeys g := by
  by_contra hk
  rw [(getKey_eq_none_iff g k).2 hk] at h
  cases h

theorem mem_objectKeys_setKey (g : Grouping) (k k1 : Int) (v : List Item)
    (h : k1 ∈ objectKeys (setKey g k v)) : k1 ∈ objectKeys g ∨ k1 = k := by
  cases hg : getKey g k with
  | none =>
    rw [setKey_of_absent _ _ _ hg] at h
    simp only [objectKeys, List.map_append, List.map_cons, List.map_nil, List.mem_append,
      List.mem_singleton] at h
    exact h
  | some l =>
    rw [objectKeys_setKey_of_present _ _ _ _ hg] at h
    exact Or.inl h

/-! ## Starting a merge -/

/-- C3: `handleCreateNewList` refuses to start a merge unless exactly two lists are
selected.  With a selection of any other length the mode flag is untouched (so a
browsing state stays browsing), the selection, the grouping and the draft are
unchanged and the validation message is non-empty; and a browsing state can only
become a merging state when the selection has length two. -/
theorem handleCreateNewList_refused (s : State) :
    (s.selectedLists.length ≠ 2 →
      (handleCreateNewList s).isCreatingList = s.isCreatingList ∧
      (s.mode = Mode.Browsing → (handleCreateNewList s).mode = Mode.Browsing) ∧
      (handleCreateNewList s).selectedLists = s.selectedLists ∧
      (handleCreateNewList s).groupedLists = s.groupedLists ∧
      (handleCreateNewList s).newList = s.newList ∧
      (handleCreateNewList s).errorMessage ≠ "") ∧
    (s.mode = Mode.Browsing → (handleCreateNewList s).mode = Mode.Merging →
      s.selectedLists.length = 2) := by
  constructor
  · intro h
    rw [handleCreateNewList, if_pos h]
    refine ⟨rfl, fun hb => hb, rfl, rfl, rfl, ?_⟩
    show "You should select exactly 2 lists to create a new list" ≠ ""
    decide
  · intro hb hm
    by_contra h
    rw [handleCreateNewList, if_pos h] at hm
    have hb2 : s.mode = Mode.Merging := hm
    rw [hb] at hb2
    exact absurd hb2 (by decide)

/-- C3 at the initial state (nothing selected), at three selected lists and at two. -/
theorem handleCreateNewList_refused_witness :
    (handleCreateNewList initialState).mode = Mode.Browsing ∧
    (handleCreateNewList initialState).errorMessage ≠ "" ∧
    (handleCreateNewList exampleOverSelected).mode = Mode.Browsing ∧
    (handleCreateNewList exampleOverSelected).selectedLists = [1, 2, 3] ∧
    exampleSelected31.selectedLists.length = 2 :=
  ⟨((handleCreateNewList_refused initialState).1 (by decide)).2.1 rfl,
   ((handleCreateNewList_refused initialState).1 (by decide)).2.2.2.2.2,
   ((handleCreateNewList_refused exampleOverSelected).1 (by decide)).2.1 rfl,
   ((handleCreateNewList_refused exampleOverSelected).1 (by decide)).2.2.1,
   (handleCreateNewList_refused exampleSelected31).2 rfl rfl⟩

/-- C4: with exactly two lists selected `handleCreateNewList` enters the merging
mode, stores the selection sorted ascending (the same two numbers, smaller
first), empties the draft and leaves the grouping unchanged.  In particular
toggling 1 and then 3 from the empty selection gives the selection 1, 3, and the
selection 3, 1 is stored as 1, 3. -/
theorem handleCreateNewList_enters (s : State) (h : s.selectedLists.length = 2) :
    (handleCreateNewList s).mode = Mode.Merging ∧
    List.Sorted (fun a b => a ≤ b) (handleCreateNewList s).selectedLists ∧
    List.Perm (handleCreateNewList s).selectedLists s.selectedLists ∧
    (∀ a b, s.selectedLists = [a, b] →
      (handleCreateNewList s).selectedLists = [min a b, max a b]) ∧
    (handleCreateNewList s).newList = [] ∧
    (handleCreateNewList s).groupedLists = s.groupedLists := by
  have hs : handleCreateNewList s =
      { s with selectedLists := sortNumeric s.selectedLists,
               isCreatingList := true, newList := [] } := by
    simp [handleCreateNewList, h]
  rw [hs]
  refine ⟨rfl, sortNumeric_sorted _, sortNumeric_perm _, ?_, rfl, rfl⟩
  intro a b hab
  simp only [hab]
  exact sortNumeric_pair a b

/-- C4 after toggling 1 and 3 from the empty selection, and at the selection 3, 1. -/
theorem handleCreateNewList_enters_witness :
    (handleCheckList 3 (handleCheckList 1 initialState)).selectedLists = [1, 3] ∧
    (handleCreateNewList (handleCheckList 3 (handleCheckList 1 initialState))).mode
      = Mode.Merging ∧
    (handleCreateNewList (handleCheckList 3 (handleCheckList 1 initialState))).selectedLists
      = [1, 3] ∧
    (handleCreateNewList exampleSelected31).mode = Mode.Merging ∧
    (handleCreateNewList exampleSelected31).selectedLists = [1, 3] ∧
    (handleCreateNewList exampleSelected31).newList = [] :=
  ⟨rfl,
   (handleCreateNewList_enters (handleCheckList 3 (handleCheckList 1 initialState)) rfl).1,
   (handleCreateNewList_enters (handleCheckList 3 (handleCheckList 1 initialState)) rfl).2.2.2.1
     1 3 rfl,
   (handleCreateNewList_enters exampleSelected31 rfl).1,
   (handleCreateNewList_enters exampleSelected31 rfl).2.2.2.1 3 1 rfl,
   (handleCreateNewList_enters exampleSelected31 rfl).2.2.2.2.1⟩

/-! ## Toggling a selection -/

/-- C7: toggling the same list number twice with `handleCheckList` gives back the
same set of selected list numbers; when the number was not selected the selection
is the identical sequence, when it was selected it ends up (once) at the end; a
selection without repetitions is returned as a rearrangement of itself without
repetitions; and after each of the two toggles the validation message is empty. -/
theorem handleCheckList_twice (s : State) (n : Int) :
    (∀ k, k ∈ (handleCheckList n (handleCheckList n s)).selectedLists ↔ k ∈ s.selectedLists) ∧
    (n ∉ s.selectedLists →
      (handleCheckList n (handleCheckList n s)).selectedLists = s.selectedLists) ∧
    (n ∈ s.selectedLists →
      (handleCheckList n (handleCheckList n s)).selectedLists
        = s.selectedLists.filter (fun num => num != n) ++ [n]) ∧
    (s.selectedLists.Nodup →
      List.Perm (handleCheckList n (handleCheckList n s)).selectedLists s.selectedLists ∧
      (handleCheckList n (handleCheckList n s)).selectedLists.Nodup) ∧
    (handleCheckList n s).errorMessage = "" ∧
    (handleCheckList n (handleCheckList n s)).errorMessage = "" := by
  have hmsg : ∀ t : State, (handleCheckList n t).errorMessage = "" := by
    intro t
    unfold handleCheckList
    split <;> rfl
  by_cases hn : n ∈ s.selectedLists
  · have h2 : (handleCheckList n (handleCheckList n s)).selectedLists
        = s.selectedLists.filter (fun num => num != n) ++ [n] := by
      simp [handleCheckList, hn]
    have hperm : s.selectedLists.Nodup →
        List.Perm (s.selectedLists.filter (fun num => num != n) ++ [n]) s.selectedLists := by
      intro hnd
      have hf : s.selectedLists.filter (fun num => num != n) = s.selectedLists.erase n := by
        rw [List.Nodup.erase_eq_filter hnd]
      rw [hf]
      exact (List.perm_append_comm.trans (List.perm_cons_erase hn).symm)
    refine ⟨?_, fun h => absurd hn h, fun _ => h2, ?_, hmsg _, hmsg _⟩
    · intro k
      rw [h2]
      by_cases hk : k = n
      · subst hk; simp [hn]
      · simp [hk]
    · intro hnd
      rw [h2]
      exact ⟨hperm hnd, (hperm hnd).nodup_iff.2 hnd⟩
  · have h2 : (handleCheckList n (handleCheckList n s)).selectedLists = s.selectedLists := by
      simp only [handleCheckList, hn, if_false, List.mem_append, List.mem_singleton, or_true,
        if_true]
      rw [List.filter_append]
      have : s.selectedLists.filter (fun num => num != n) = s.selectedLists := by
        apply List.filter_eq_self.2
        intro x hx
        have : x ≠ n := fun e => hn (e ▸ hx)
        simpa [bne] using this
      simp [this]
    refine ⟨?_, fun _ => h2, fun h => absurd h hn, ?_, hmsg _, hmsg _⟩
    · intro k; rw [h2]
    · intro hnd; rw [h2]; exact ⟨List.Perm.refl _, hnd⟩

/-- C7 at the selection 3, 1: toggling the selected 3 twice and the absent 2 twice. -/
theorem handleCheckList_twice_witness :
    (handleCheckList 3 (handleCheckList 3 exampleSelected31)).selectedLists = [1, 3] ∧
    (handleCheckList 2 (handleCheckList 2 exampleSelected31)).selectedLists = [3, 1] ∧
    List.Perm (handleCheckList 3 (handleCheckList 3 exampleSelected31)).selectedLists [3, 1] :=
  ⟨(handleCheckList_twice exampleSelected31 3).2.2.1 (by decide),
   (handleCheckList_twice exampleSelected31 2).2.1 (by decide),
   ((handleCheckList_twice exampleSelected31 3).2.2.2.1 (by decide)).1⟩

/-! ## The sorted list numbers -/

/-- C10: the render-time `listNumbers` holds exactly the keys of the grouping, as
numbers in ascending order: it is a sorted rearrangement of the keys, a number
occurs in it iff it is a key, and when the keys are pairwise distinct (as the
keys of an object are) it is strictly ascending, so every key occurs exactly
once.  Keys 10 and 9 come out as 9, 10. -/
theorem listNumbers_sorted_keys (s : State) :
    List.Sorted (fun a b => a ≤ b) (listNumbers s) ∧
    List.Perm (listNumbers s) (objectKeys s.groupedLists) ∧
    (∀ k, k ∈ listNumbers s ↔ getKey s.groupedLists k ≠ none) ∧
    ((objectKeys s.groupedLists).Nodup →
      List.Sorted (fun a b => a < b) (listNumbers s) ∧
      ∀ k, getKey s.groupedLists k ≠ none → (listNumbers s).count k = 1) := by
  have hsort := sortNumeric_sorted (objectKeys s.groupedLists)
  have hperm := sortNumeric_perm (objectKeys s.groupedLists)
  have hmem : ∀ k, k ∈ listNumbers s ↔ getKey s.groupedLists k ≠ none := by
    intro k
    rw [Ne, getKey_eq_none_iff, not_not]
    exact hperm.mem_iff
  refine ⟨hsort, hperm, hmem, ?_⟩
  intro hnd
  have hnd2 : (listNumbers s).Nodup := hperm.nodup_iff.2 hnd
  refine ⟨?_, ?_⟩
  · exact (List.Sorted.lt_of_le hsort hnd2)
  · intro k hk
    exact List.count_eq_one_of_mem hnd2 ((hmem k).2 hk)

/-- C10 at a grouping with the keys 10 and 9. -/
theorem listNumbers_sorted_keys_witness :
    listNumbers exampleKeys109 = [9, 10] ∧
    List.Sorted (fun a b => a < b) (listNumbers exampleKeys109) ∧
    (listNumbers exampleKeys109).count 10 = 1 :=
  ⟨rfl,
   ((listNumbers_sorted_keys exampleKeys109).2.2.2 (by decide)).1,
   ((listNumbers_sorted_keys exampleKeys109).2.2.2 (by decide)).2 10 (by decide)⟩

/-! ## Cancelling a merge -/

/-- C9: `handleCancel`, once its reload has succeeded, leaves the grouping that the
source items produce on load, whatever the state it was invoked in (so whatever
moves came before): under every list number the source items of that number, in
arrival order, and no list for a number without items.  The mode is browsing and
the selection and the draft are empty.  With the source lists 1 = A, B and
2 = C, moving A to the draft changes the grouping and cancelling restores it. -/
theorem handleCancel_reloads (lists : List Item) (s s0 : State) :
    (handleCancel (some lists) s).groupedLists = (fetchLists (some lists) s0).groupedLists ∧
    (∀ k, getKey (handleCancel (some lists) s).groupedLists k =
      if lists.filter (fun item => item.list_number == k) = [] then none
      else some (lists.filter (fun item => item.list_number == k))) ∧
    (handleCancel (some lists) s).mode = Mode.Browsing ∧
    (handleCancel (some lists) s).selectedLists = [] ∧
    (handleCancel (some lists) s).newList = [] ∧
    (handleCancel (some lists) s).loading = false ∧
    (handleCancel (some lists) s).error = false ∧
    (∃ s1, moveItemToNewList itemA 0 exampleMerging = Except.ok s1 ∧
      s1.groupedLists = [(1, [itemB]), (2, [itemC])] ∧
      (handleCancel (some [itemA, itemB, itemC]) s1).groupedLists
        = [(1, [itemA, itemB]), (2, [itemC])]) := by
  refine ⟨rfl, ?_, rfl, rfl, rfl, rfl, rfl, ?_⟩
  · intro k
    show getKey (groupBy lists) k = _
    unfold groupBy
    rw [getKey_foldl_groupByStep]
    rfl
  · exact ⟨_, rfl, rfl, rfl⟩

/-! ## Committing a merge -/

/-- C2, as the code violates it: on the grouping with the lists 1 (empty) and
2^53 (holding D) and the draft A, the double sum 2^53 + 1 is 2^53 again, so
`handleUpdate` adds no key: it writes the relabelled draft under the existing
key 2^53 and the list that held D is gone. -/
theorem handleUpdate_overwrites :
    exampleUnsafeStaged.groupedLists = [(1, []), (9007199254740992, [itemD])] ∧
    exampleUnsafeStaged.newList = [stagedA] ∧
    roundToDouble (9007199254740992 + 1) = 9007199254740992 ∧
    handleUpdate exampleUnsafeStaged = Except.ok
      { exampleUnsafeStaged with
        groupedLists :=
          [(1, []), (9007199254740992, [{ itemA with list_number := 9007199254740992 }])],
        isCreatingList := false, selectedLists := [], newList := [] } ∧
    (∀ s1, handleUpdate exampleUnsafeStaged = Except.ok s1 →
      objectKeys s1.groupedLists = objectKeys exampleUnsafeStaged.groupedLists ∧
      getKey s1.groupedLists 9007199254740992
        ≠ getKey exampleUnsafeStaged.groupedLists 9007199254740992 ∧
      itemD.id ∉ s1.allIds) := by
  refine ⟨rfl, rfl, rfl, rfl, ?_⟩
  intro s1 h1
  have hok : handleUpdate exampleUnsafeStaged = Except.ok
      { exampleUnsafeStaged with
        groupedLists :=
          [(1, []), (9007199254740992, [{ itemA with list_number := 9007199254740992 }])],
        isCreatingList := false, selectedLists := [], newList := [] } := rfl
  rw [hok] at h1
  cases h1
  exact ⟨rfl, by decide, by decide⟩

/-- C2, amended: on a non-empty grouping whose list numbers are safe integers (each
above -2^53 and below 2^53) `handleUpdate` succeeds; the new list number is one
more than the greatest existing list number and is not an existing key; the new
grouping is the old one, every list number and its list unchanged, followed by
the new key, whose list holds the draft items in draft order, each with
`list_number` rewritten to the new number and the provenance fields cleared; the
mode is browsing and the selection and the draft are empty. -/
theorem handleUpdate_commits (s : State) (hne : s.groupedLists ≠ [])
    (hsafe : ∀ k ∈ objectKeys s.groupedLists,
      -9007199254740992 < k ∧ k < 9007199254740992) :
    ∃ n s1, handleUpdate s = Except.ok s1 ∧
      n - 1 ∈ objectKeys s.groupedLists ∧
      (∀ k ∈ objectKeys s.groupedLists, k ≤ n - 1) ∧
      getKey s.groupedLists n = none ∧
      (∀ k, k ≠ n → getKey s1.groupedLists k = getKey s.groupedLists k) ∧
      objectKeys s1.groupedLists = objectKeys s.groupedLists ++ [n] ∧
      (∃ l, getKey s1.groupedLists n = some l ∧
        s1.groupedLists = s.groupedLists ++ [(n, l)] ∧
        List.Forall₂
          (fun d c => c.id = d.id ∧ c.name = d.name ∧
            c.scientific_name = d.scientific_name ∧ c.list_number = n ∧
            c.originalList = none ∧ c.originalListNumber = none)
          s.newList l) ∧
      s1.mode = Mode.Browsing ∧ s1.selectedLists = [] ∧ s1.newList = [] := by
  cases hm : mathMax (objectKeys s.groupedLists) with
  | none =>
    have hnil := (mathMax_eq_none_iff _).1 hm
    simp only [objectKeys, List.map_eq_nil_iff] at hnil
    exact absurd hnil hne
  | some m =>
    obtain ⟨hmem, hle⟩ := mathMax_spec _ m hm
    have hexact : roundToDouble (m + 1) = m + 1 := by
      have := hsafe m hmem
      exact roundToDouble_exact _ (by omega) (by omega)
    have hfresh : getKey s.groupedLists (m + 1) = none := by
      rw [getKey_eq_none_iff]
      intro hin
      have := hle _ hin
      omega
    refine ⟨m + 1,
      { s with
        groupedLists := setKey s.groupedLists (m + 1) (s.newList.map (relabel (m + 1))),
        isCreatingList := false, selectedLists := [], newList := [] },
      ?_, ?_, ?_, hfresh, ?_, ?_, ?_, rfl, rfl, rfl⟩
    · simp only [handleUpdate, hm, hexact]
    · simpa using hmem
    · intro k hk
      have := hle k hk
      omega
    · intro k hk
      exact getKey_setKey_ne _ _ _ _ hk
    · show objectKeys (setKey _ _ _) = _
      rw [setKey_of_absent _ _ _ hfresh]
      simp [objectKeys]
    · refine ⟨s.newList.map (relabel (m + 1)), getKey_setKey_self _ _ _,
        setKey_of_absent _ _ _ hfresh, ?_⟩
      rw [List.forall₂_map_right_iff]
      apply List.forall₂_same.2
      intro d _
      simp [relabel]

/-- C2 at the grouping 1 = B, 2 = empty with the draft A, C, and at the keys 1, 2, 5. -/
theorem handleUpdate_commits_witness :
    (∃ n s1, handleUpdate exampleStaged = Except.ok s1 ∧
      n - 1 ∈ objectKeys exampleStaged.groupedLists ∧
      (∀ k ∈ objectKeys exampleStaged.groupedLists, k ≤ n - 1) ∧
      getKey exampleStaged.groupedLists n = none ∧
      (∀ k, k ≠ n → getKey s1.groupedLists k = getKey exampleStaged.groupedLists k) ∧
      objectKeys s1.groupedLists = objectKeys exampleStaged.groupedLists ++ [n] ∧
      (∃ l, getKey s1.groupedLists n = some l ∧
        s1.groupedLists = exampleStaged.groupedLists ++ [(n, l)] ∧
        List.Forall₂
          (fun d c => c.id = d.id ∧ c.name = d.name ∧
            c.scientific_name = d.scientific_name ∧ c.list_number = n ∧
            c.originalList = none ∧ c.originalListNumber = none)
          exampleStaged.newList l) ∧
      s1.mode = Mode.Browsing ∧ s1.selectedLists = [] ∧ s1.newList = []) ∧
    handleUpdate exampleStaged = Except.ok
      { exampleStaged with
        groupedLists :=
          [(1, [itemB]), (2, []),
           (3, [{ itemA with list_number := 3 }, { itemC with list_number := 3 }])],
        isCreatingList := false, selectedLists := [], newList := [] } ∧
    (∃ s1, handleUpdate exampleKeys125 = Except.ok s1 ∧
      objectKeys s1.groupedLists = [1, 2, 5, 6]) :=
  ⟨handleUpdate_commits exampleStaged (by decide) (by decide), rfl, ⟨_, rfl, rfl⟩⟩

/-! ## Moving an item to the draft -/

/-- C6, as the code violates it: in the browsing state with list 1 = A, B selected,
`moveItemToNewList` called with the item C of list 2 for slot 0 raises no fault;
it appends C to the draft and leaves C in list 2. -/
theorem moveItemToNewList_unguarded :
    exampleBrowsing.mode = Mode.Browsing ∧
    exampleBrowsing.selectedLists[0]? = some 1 ∧
    getKey exampleBrowsing.groupedLists 1 = some [itemA, itemB] ∧
    itemC ∉ [itemA, itemB] ∧
    exampleBrowsing.newList = [] ∧
    (¬ ∃ f, moveItemToNewList itemC 0 exampleBrowsing = Except.error f) ∧
    moveItemToNewList itemC 0 exampleBrowsing = Except.ok
      { exampleBrowsing with
        newList := [{ itemC with originalList := some 0, originalListNumber := some 1 }] } := by
  refine ⟨rfl, rfl, rfl, by decide, rfl, ?_, rfl⟩
  rintro ⟨f, hf⟩
  have hok : moveItemToNewList itemC 0 exampleBrowsing = Except.ok
      { exampleBrowsing with
        newList := [{ itemC with originalList := some 0, originalListNumber := some 1 }] } := rfl
  rw [hok] at hf
  cases hf

/-- C6, amended: `moveItemToNewList` checks neither the mode nor that the item is in
the source list.  It raises a fault, a `TypeError` thrown before any state is
set, exactly when `selectedLists[fromListIndex]` is missing or is not a key of
the grouping.  Otherwise it succeeds in either mode: the list under that key
loses every item with the identity of the argument (nothing, when there is
none), the argument is appended to the draft with its provenance, and the other
lists, the keys, the selection and the mode are unchanged. -/
theorem moveItemToNewList_outcome (item : Item) (fromListIndex : Nat) (s : State) :
    ((∃ f, moveItemToNewList item fromListIndex s = Except.error f) ↔
      ∀ ln, s.selectedLists[fromListIndex]? = some ln → getKey s.groupedLists ln = none) ∧
    (∀ f, moveItemToNewList item fromListIndex s = Except.error f → f = Fault.typeError) ∧
    (∀ ln l, s.selectedLists[fromListIndex]? = some ln → getKey s.groupedLists ln = some l →
      ∃ s1, moveItemToNewList item fromListIndex s = Except.ok s1 ∧
        getKey s1.groupedLists ln
          = some (l.filter (fun listItem => listItem.id != item.id)) ∧
        (item.id ∉ l.map Item.id → getKey s1.groupedLists ln = some l) ∧
        (∀ k, k ≠ ln → getKey s1.groupedLists k = getKey s.groupedLists k) ∧
        objectKeys s1.groupedLists = objectKeys s.groupedLists ∧
        s1.newList = s.newList ++
          [{ item with originalList := some fromListIndex, originalListNumber := some ln }] ∧
        s1.selectedLists = s.selectedLists ∧
        s1.mode = s.mode) := by
  cases hsel : s.selectedLists[fromListIndex]? with
  | none =>
    refine ⟨⟨fun _ ln h => absurd h (by simp), fun _ => ⟨Fault.typeError, ?_⟩⟩, ?_, ?_⟩
    · simp only [moveItemToNewList, hsel]
    · intro f hf
      simp only [moveItemToNewList, hsel] at hf
      cases hf
      rfl
    · intro ln l h
      cases h
  | some ln0 =>
    cases hg : getKey s.groupedLists ln0 with
    | none =>
      refine ⟨⟨fun _ ln h => ?_, fun _ => ⟨Fault.typeError, ?_⟩⟩, ?_, ?_⟩
      · cases h
        exact hg
      · simp only [moveItemToNewList, hsel, hg]
      · intro f hf
        simp only [moveItemToNewList, hsel, hg] at hf
        cases hf
        rfl
      · intro ln l h hl
        cases h
        rw [hg] at hl
        cases hl
    | some l0 =>
      have hok : moveItemToNewList item fromListIndex s = Except.ok
          { s with
            groupedLists :=
              setKey s.groupedLists ln0 (l0.filter (fun listItem => listItem.id != item.id)),
            newList := s.newList ++
              [{ item with originalList := some fromListIndex,
                           originalListNumber := some ln0 }] } := by
        simp only [moveItemToNewList, hsel, hg]
      refine ⟨⟨?_, ?_⟩, ?_, ?_⟩
      · rintro ⟨f, hf⟩
        rw [hok] at hf
        cases hf
      · intro hall
        have := hall ln0 rfl
        rw [hg] at this
        cases this
      · intro f hf
        rw [hok] at hf
        cases hf
      · intro ln l h hl
        cases h
        rw [hg] at hl
        cases hl
        refine ⟨_, hok, getKey_setKey_self _ _ _, ?_, ?_, ?_, rfl, rfl, rfl⟩
        · intro hnot
          show getKey (setKey _ _ _) _ = _
          rw [filter_id_of_not_mem _ _ hnot]
          exact getKey_setKey_self _ _ _
        · intro k hk
          exact getKey_setKey_ne _ _ _ _ hk
        · exact objectKeys_setKey_of_present _ _ _ _ hg

/-- C6 amended, at an index beyond the selection (fault), at a resident item while
merging, and at a foreign item while browsing. -/
theorem moveItemToNewList_outcome_witness :
    (∃ f, moveItemToNewList itemA 2 exampleMerging = Except.error f) ∧
    (∃ s1, moveItemToNewList itemA 0 exampleMerging = Except.ok s1 ∧
      getKey s1.groupedLists 1 = some [itemB] ∧
      (itemA.id ∉ [itemA, itemB].map Item.id → getKey s1.groupedLists 1 = some [itemA, itemB]) ∧
      (∀ k, k ≠ 1 → getKey s1.groupedLists k = getKey exampleMerging.groupedLists k) ∧
      objectKeys s1.groupedLists = objectKeys exampleMerging.groupedLists ∧
      s1.newList = exampleMerging.newList ++ [stagedA] ∧
      s1.selectedLists = exampleMerging.selectedLists ∧
      s1.mode = exampleMerging.mode) ∧
    (∃ s1, moveItemToNewList itemC 0 exampleBrowsing = Except.ok s1 ∧
      getKey s1.groupedLists 1 = some [itemA, itemB] ∧ s1.mode = Mode.Browsing) :=
  ⟨(moveItemToNewList_outcome itemA 2 exampleMerging).1.2
     (fun _ h => Option.noConfusion (h : (none : Option Int) = some _)),
   (moveItemToNewList_outcome itemA 0 exampleMerging).2.2 1 [itemA, itemB] rfl rfl,
   match (moveItemToNewList_outcome itemC 0 exampleBrowsing).2.2 1 [itemA, itemB] rfl rfl with
   | ⟨s1, h1, _, h3, _, _, _, _, h8⟩ => ⟨s1, h1, h3 (by decide), h8⟩⟩

/-! ## The round trip through the draft -/

/-- C5: for an item of the list under `selectedLists[slot]`, in a state whose item
identities are pairwise distinct, `moveItemToNewList` followed by
`moveItemFromNewList` of the staged item succeeds and restores the content of
that list: it holds the other items in their original relative order followed
by the moved item (same identity, name, scientific name and list number), which
is a rearrangement of the items held before; every other list, the keys, the
selection and the mode are unchanged and the draft is the same as before. -/
theorem move_round_trip (s : State) (item : Item) (slot : Nat) (ln : Int) (l : List Item)
    (hsel : s.selectedLists[slot]? = some ln) (hl : getKey s.groupedLists ln = some l)
    (hin : item ∈ l) (hnd : s.allIds.Nodup) :
    ∃ s1 s2 staged others,
      moveItemToNewList item slot s = Except.ok s1 ∧
      s1.newList = s.newList ++ [staged] ∧
      moveItemFromNewList staged s1 = Except.ok s2 ∧
      (staged.id = item.id ∧ staged.name = item.name ∧
        staged.scientific_name = item.scientific_name ∧
        staged.list_number = item.list_number) ∧
      getKey s2.groupedLists ln = some (others ++ [staged]) ∧
      List.Sublist others l ∧
      List.Perm (others ++ [item]) l ∧
      List.Perm ((others ++ [staged]).map Item.id) (l.map Item.id) ∧
      (∀ k, k ≠ ln → getKey s2.groupedLists k = getKey s.groupedLists k) ∧
      objectKeys s2.groupedLists = objectKeys s.groupedLists ∧
      s2.newList = s.newList ∧
      s2.selectedLists = s.selectedLists ∧
      s2.mode = s.mode := by
  have hnd2 : (groupingIds s.groupedLists).Nodup := (List.nodup_append.1 hnd).1
  have hlnd : (l.map Item.id).Nodup := nodup_ids_of_getKey _ _ _ hl hnd2
  have hgin : item.id ∈ groupingIds s.groupedLists := mem_groupingIds_of_getKey _ _ _ _ hl hin
  have hdraft : item.id ∉ s.newList.map Item.id := fun hd =>
    (List.nodup_append.1 hnd).2.2 hgin hd
  have hperm := filter_id_perm l item hin hlnd
  let others := l.filter (fun listItem => listItem.id != item.id)
  let staged : Item := { item with originalList := some slot, originalListNumber := some ln }
  let s1 : State :=
    { s with groupedLists := setKey s.groupedLists ln others,
             newList := s.newList ++ [staged] }
  have h1 : moveItemToNewList item slot s = Except.ok s1 := by
    simp only [moveItemToNewList, hsel, hl]
  have hg1 : getKey s1.groupedLists ln = some others := getKey_setKey_self _ _ _
  have hfilter : s1.newList.filter (fun listItem => listItem.id != staged.id) = s.newList := by
    show (s.newList ++ [staged]).filter (fun listItem => listItem.id != item.id) = s.newList
    rw [List.filter_append, filter_id_of_not_mem _ _ hdraft]
    simp [staged]
  let s2 : State :=
    { s1 with newList := s.newList,
              groupedLists := setKey s1.groupedLists ln (others ++ [staged]) }
  have h2 : moveItemFromNewList staged s1 = Except.ok s2 := by
    simp only [moveItemFromNewList, hg1, hfilter]
  refine ⟨s1, s2, staged, others, h1, rfl, h2, ⟨rfl, rfl, rfl, rfl⟩,
    getKey_setKey_self _ _ _, List.filter_sublist l, hperm, ?_, ?_, ?_, rfl, rfl, rfl⟩
  · have : (others ++ [staged]).map Item.id = (others ++ [item]).map Item.id := by
      simp [staged]
    rw [this]
    exact hperm.map _
  · intro k hk
    show getKey (setKey (setKey _ _ _) _ _) _ = _
    rw [getKey_setKey_ne _ _ _ _ hk, getKey_setKey_ne _ _ _ _ hk]
  · show objectKeys (setKey (setKey _ _ _) _ _) = _
    rw [objectKeys_setKey_of_present _ _ _ _ hg1, objectKeys_setKey_of_present _ _ _ _ hl]

/-- C5 for the item A of list 1 in the merging state over lists 1 and 2. -/
theorem move_round_trip_witness :
    ∃ s1 s2 staged others,
      moveItemToNewList itemA 0 exampleMerging = Except.ok s1 ∧
      s1.newList = exampleMerging.newList ++ [staged] ∧
      moveItemFromNewList staged s1 = Except.ok s2 ∧
      (staged.id = itemA.id ∧ staged.name = itemA.name ∧
        staged.scientific_name = itemA.scientific_name ∧
        staged.list_number = itemA.list_number) ∧
      getKey s2.groupedLists 1 = some (others ++ [staged]) ∧
      List.Sublist others [itemA, itemB] ∧
      List.Perm (others ++ [itemA]) [itemA, itemB] ∧
      List.Perm ((others ++ [staged]).map Item.id) ([itemA, itemB].map Item.id) ∧
      (∀ k, k ≠ 1 → getKey s2.groupedLists k = getKey exampleMerging.groupedLists k) ∧
      objectKeys s2.groupedLists = objectKeys exampleMerging.groupedLists ∧
      s2.newList = exampleMerging.newList ∧
      s2.selectedLists = exampleMerging.selectedLists ∧
      s2.mode = exampleMerging.mode :=
  move_round_trip exampleMerging itemA 0 1 [itemA, itemB] rfl rfl (by decide) (by decide)

/-! ## The selection invariant -/

theorem moveItemToNewList_keeps_selection (item : Item) (fromListIndex : Nat) (s s1 : State)
    (h : moveItemToNewList item fromListIndex s = Except.ok s1) :
    s1.selectedLists = s.selectedLists ∧ s1.isCreatingList = s.isCreatingList := by
  unfold moveItemToNewList at h
  split at h
  · cases h
  · split at h
    · cases h
    · cases h
      exact ⟨rfl, rfl⟩

theorem moveItemFromNewList_keeps_selection (item : Item) (s s1 : State)
    (h : moveItemFromNewList item s = Except.ok s1) :
    s1.selectedLists = s.selectedLists ∧ s1.isCreatingList = s.isCreatingList := by
  unfold moveItemFromNewList at h
  split at h
  · cases h
  · cases h
    exact ⟨rfl, rfl⟩

theorem handleUpdate_clears_selection (s s1 : State) (h : handleUpdate s = Except.ok s1) :
    s1.selectedLists = [] ∧ s1.isCreatingList = false := by
  cases hmax : mathMax (objectKeys s.groupedLists) with
  | none =>
    simp only [handleUpdate, hmax] at h
    cases h
  | some m =>
    simp only [handleUpdate, hmax] at h
    cases h
    exact ⟨rfl, rfl⟩

theorem toOption_eq_some {e : Except Fault State} {s1 : State}
    (h : e.toOption = some s1) : e = Except.ok s1 := by
  cases e with
  | error f => cases h
  | ok s2 =>
    cases h
    rfl

theorem handleCheckList_nodup (n : Int) (s : State) (h : s.selectedLists.Nodup) :
    (handleCheckList n s).selectedLists.Nodup := by
  unfold handleCheckList
  split
  · exact h.filter _
  · rename_i hn
    show (s.selectedLists ++ [n]).Nodup
    rw [List.nodup_append]
    refine ⟨h, List.nodup_singleton n, ?_⟩
    intro a ha hb
    rw [List.mem_singleton] at hb
    exact hn (hb ▸ ha)

theorem selectionInv_handleCreateNewList (s : State) (h : SelectionInv s) :
    SelectionInv (handleCreateNewList s) := by
  obtain ⟨hnd, hm⟩ := h
  by_cases hlen : s.selectedLists.length = 2
  · have hs : handleCreateNewList s =
        { s with selectedLists := sortNumeric s.selectedLists,
                 isCreatingList := true, newList := [] } := by
      simp [handleCreateNewList, hlen]
    rw [hs]
    refine ⟨(sortNumeric_perm _).nodup_iff.2 hnd, fun _ => ?_⟩
    obtain ⟨a, b, hab⟩ := List.length_eq_two.1 hlen
    have hne : a ≠ b := by
      rw [hab] at hnd
      simpa using hnd
    refine ⟨min a b, max a b, ?_, ?_⟩
    · show sortNumeric s.selectedLists = _
      rw [hab]
      exact sortNumeric_pair a b
    · rcases lt_or_gt_of_ne hne with hlt | hgt
      · rw [min_eq_left hlt.le, max_eq_right hlt.le]
        exact hlt
      · rw [min_eq_right hgt.le, max_eq_left hgt.le]
        exact hgt
  · have hs : handleCreateNewList s =
        { s with errorMessage := "You should select exactly 2 lists to create a new list" } := by
      rw [handleCreateNewList, if_pos hlen]
    rw [hs]
    exact ⟨hnd, hm⟩

theorem selectionInv_step (a : Action) (s s1 : State) (h : SelectionInv s)
    (hstep : step a s = some s1) : SelectionInv s1 := by
  cases a with
  | toggleSelection n =>
    simp only [step] at hstep
    split at hstep
    · cases hstep
    · rename_i hb
      cases hstep
      refine ⟨handleCheckList_nodup n s h.1, fun hc => ?_⟩
      have : (handleCheckList n s).isCreatingList = s.isCreatingList := by
        unfold handleCheckList
        split <;> rfl
      rw [this] at hc
      exact absurd hc hb
  | startMerge =>
    simp only [step, Option.some.injEq] at hstep
    subst hstep
    exact selectionInv_handleCreateNewList s h
  | moveToDraft item idx =>
    obtain ⟨h1, h2⟩ := moveItemToNewList_keeps_selection item idx s s1 (toOption_eq_some hstep)
    exact ⟨h1 ▸ h.1, fun hc => by rw [h1]; exact h.2 (h2 ▸ hc)⟩
  | moveFromDraft item =>
    obtain ⟨h1, h2⟩ := moveItemFromNewList_keeps_selection item s s1 (toOption_eq_some hstep)
    exact ⟨h1 ▸ h.1, fun hc => by rw [h1]; exact h.2 (h2 ▸ hc)⟩
  | commit =>
    obtain ⟨h1, h2⟩ := handleUpdate_clears_selection s s1 (toOption_eq_some hstep)
    refine ⟨by rw [h1]; exact List.nodup_nil, fun hc => ?_⟩
    rw [h2] at hc
    cases hc
  | cancel response =>
    simp only [step, Option.some.injEq] at hstep
    subst hstep
    cases response <;> exact ⟨List.nodup_nil, fun hc => by cases hc⟩

theorem selectionInv_run (actions : List Action) (s s1 : State) (h : SelectionInv s)
    (hrun : run actions s = some s1) : SelectionInv s1 := by
  induction actions generalizing s with
  | nil =>
    simp only [run, Option.some.injEq] at hrun
    exact hrun ▸ h
  | cons a rest ih =>
    simp only [run] at hrun
    cases hs : step a s with
    | none => simp [hs] at hrun
    | some s2 =>
      simp only [hs] at hrun
      exact ih s2 (selectionInv_step a s s2 h hs) hrun

/-- C8: in every state reached from a browsing state with empty selection by
toggles (raised while browsing), merge starts, moves in either direction,
commits and cancels, the selection never repeats a list number, and whenever the
mode is merging the selection is exactly two list numbers in strictly ascending
order.  Whatever state a commit or a cancel is applied to, the state it leaves
is browsing with the empty selection, and a commit on a non-empty grouping does
leave a state. -/
theorem selection_invariant (actions : List Action) (s0 s : State)
    (hmode : s0.mode = Mode.Browsing) (hsel : s0.selectedLists = [])
    (hrun : run actions s0 = some s) :
    s.selectedLists.Nodup ∧
    (s.mode = Mode.Merging →
      s.selectedLists.length = 2 ∧
      ∃ a b, s.selectedLists = [a, b] ∧ s.selectedLists[0]? = some a ∧
        s.selectedLists[1]? = some b ∧ a < b) ∧
    (∀ s1, step Action.commit s = some s1 →
      s1.mode = Mode.Browsing ∧ s1.selectedLists = []) ∧
    (s.groupedLists ≠ [] → ∃ s1, step Action.commit s = some s1) ∧
    (∀ response s1, step (Action.cancel response) s = some s1 →
      s1.mode = Mode.Browsing ∧ s1.selectedLists = []) := by
  have h0 : SelectionInv s0 := by
    refine ⟨by rw [hsel]; exact List.nodup_nil, fun hc => ?_⟩
    simp only [State.mode, hc, if_true] at hmode
    cases hmode
  obtain ⟨hnd, hm⟩ := selectionInv_run actions s0 s h0 hrun
  refine ⟨hnd, ?_, ?_, ?_, ?_⟩
  · intro hmerging
    have hc : s.isCreatingList = true := by
      by_contra hb
      simp only [State.mode, hb] at hmerging
      cases hmerging
    obtain ⟨a, b, hab, hlt⟩ := hm hc
    refine ⟨by rw [hab]; rfl, a, b, hab, by rw [hab]; rfl, by rw [hab]; rfl, hlt⟩
  · intro s1 hs1
    obtain ⟨h1, h2⟩ := handleUpdate_clears_selection s s1 (toOption_eq_some hs1)
    exact ⟨by simp [State.mode, h2], h1⟩
  · intro hne
    cases hmax : mathMax (objectKeys s.groupedLists) with
    | none =>
      have hnil := (mathMax_eq_none_iff _).1 hmax
      simp only [objectKeys, List.map_eq_nil_iff] at hnil
      exact absurd hnil hne
    | some m =>
      exact ⟨_, by simp only [step, handleUpdate, hmax]; rfl⟩
  · intro response s1 hs1
    simp only [step, Option.some.injEq] at hs1
    subst hs1
    cases response <;> exact ⟨rfl, rfl⟩

/-- C8 on a run that selects 2 and then 1, starts the merge and moves A. -/
theorem selection_invariant_witness :
    run [Action.toggleSelection 2, Action.toggleSelection 1, Action.startMerge,
         Action.moveToDraft itemA 0] exampleLoaded
      = some { exampleLoaded with
               selectedLists := [1, 2], isCreatingList := true,
               groupedLists := [(1, [itemB]), (2, [itemC])], newList := [stagedA] } ∧
    ({ exampleLoaded with
       selectedLists := [1, 2], isCreatingList := true,
       groupedLists := [(1, [itemB]), (2, [itemC])], newList := [stagedA] } : State).mode
      = Mode.Merging ∧
    ({ exampleLoaded with
       selectedLists := [1, 2], isCreatingList := true,
       groupedLists := [(1, [itemB]), (2, [itemC])],
       newList := [stagedA] } : State).selectedLists.length = 2 :=
  ⟨rfl, rfl,
   ((selection_invariant
      [Action.toggleSelection 2, Action.toggleSelection 1, Action.startMerge,
       Action.moveToDraft itemA 0]
      exampleLoaded _ rfl rfl rfl).2.1 rfl).1⟩

/-! ## Conservation of the items -/

theorem draftProvenance_of_keysWithin (c : Nat) (s : State) (h : KeysWithin c s) :
    DraftProvenance s := by
  intro d hd
  obtain ⟨ln, hln, _⟩ := h.2 d hd
  exact ⟨ln, hln⟩

theorem conserve_moveToDraft (item : Item) (idx : Nat) (c : Nat) (s s1 : State)
    (hnd : s.allIds.Nodup) (hkeys : KeysWithin c s)
    (hr : rendersToDraft item idx s = true)
    (h : moveItemToNewList item idx s = Except.ok s1) :
    List.Perm s1.allIds s.allIds ∧ KeysWithin c s1 := by
  unfold rendersToDraft at hr
  cases hsel : s.selectedLists[idx]? with
  | none => simp [hsel] at hr
  | some ln =>
    cases hg : getKey s.groupedLists ln with
    | none => simp [hsel, hg] at hr
    | some l =>
      simp only [hsel, hg, decide_eq_true_eq] at hr
      simp only [moveItemToNewList, hsel, hg, Except.ok.injEq] at h
      subst h
      have hnd2 : (groupingIds s.groupedLists).Nodup := (List.nodup_append.1 hnd).1
      have hperm := (filter_id_perm l item hr (nodup_ids_of_getKey _ _ _ hg hnd2)).map Item.id
      obtain ⟨pre, post, h1, h2⟩ := groupingIds_setKey_of_present _ _ _ hg
      refine ⟨?_, ?_, ?_⟩
      · rw [List.perm_iff_count]
        intro a
        have hc := hperm.count_eq a
        simp only [State.allIds, h1, h2, List.map_append, List.map_cons, List.map_nil,
          List.count_append] at hc ⊢
        omega
      · intro k hk
        have hk2 : k ∈ objectKeys s.groupedLists := by
          rw [← objectKeys_setKey_of_present _ _ _ _ hg]
          exact hk
        exact hkeys.1 k hk2
      · intro d hd
        rcases List.mem_append.1 hd with hd | hd
        · exact hkeys.2 d hd
        · rw [List.mem_singleton] at hd
          exact ⟨ln, by rw [hd], hkeys.1 ln (mem_objectKeys_of_getKey _ _ _ hg)⟩

theorem conserve_moveFromDraft (item : Item) (c : Nat) (s s1 : State)
    (hnd : s.allIds.Nodup) (hkeys : KeysWithin c s)
    (hr : rendersFromDraft item s = true)
    (h : moveItemFromNewList item s = Except.ok s1) :
    List.Perm s1.allIds s.allIds ∧ KeysWithin c s1 := by
  simp only [rendersFromDraft, decide_eq_true_eq] at hr
  obtain ⟨ln, hln, hbound⟩ := hkeys.2 item hr
  have hnd2 : (s.newList.map Item.id).Nodup := (List.nodup_append.1 hnd).2.1
  have hperm := (filter_id_perm s.newList item hr hnd2).map Item.id
  have hdraft : ∀ d ∈ s.newList.filter (fun listItem => listItem.id != item.id),
      ∃ listNumber, d.originalListNumber = some listNumber ∧
        -9007199254740992 < listNumber ∧ listNumber + c ≤ 9007199254740992 :=
    fun d hd => hkeys.2 d (List.mem_of_mem_filter hd)
  have hkeys1 : ∀ (v : List Item), ∀ k ∈ objectKeys (setKey s.groupedLists ln v),
      -9007199254740992 < k ∧ k + c ≤ 9007199254740992 := by
    intro v k hk
    rcases mem_objectKeys_setKey _ _ _ _ hk with hk | hk
    · exact hkeys.1 k hk
    · rw [hk]
      exact hbound
  cases hg : getKey s.groupedLists ln with
  | none =>
    simp only [moveItemFromNewList, hln, hg, Except.ok.injEq] at h
    subst h
    refine ⟨?_, hkeys1 _, hdraft⟩
    rw [List.perm_iff_count]
    intro a
    have hc := hperm.count_eq a
    simp only [State.allIds, groupingIds_setKey_of_absent _ _ _ hg, List.map_append,
      List.map_cons, List.map_nil, List.nil_append, List.count_append] at hc ⊢
    omega
  | some l =>
    simp only [moveItemFromNewList, hln, hg, Except.ok.injEq] at h
    subst h
    obtain ⟨pre, post, h1, h2⟩ := groupingIds_setKey_of_present _ _ _ hg
    refine ⟨?_, hkeys1 _, hdraft⟩
    rw [List.perm_iff_count]
    intro a
    have hc := hperm.count_eq a
    simp only [State.allIds, h1, h2, List.map_append, List.map_cons, List.map_nil,
      List.count_append] at hc ⊢
    omega

theorem map_id_relabel (n : Int) (l : List Item) :
    (l.map (relabel n)).map Item.id = l.map Item.id := by
  rw [List.map_map]
  rfl

theorem conserve_handleUpdate (c : Nat) (s s1 : State) (hkeys : KeysWithin (c + 1) s)
    (h : handleUpdate s = Except.ok s1) :
    List.Perm s1.allIds s.allIds ∧ KeysWithin c s1 := by
  cases hmax : mathMax (objectKeys s.groupedLists) with
  | none =>
    simp only [handleUpdate, hmax] at h
    cases h
  | some m =>
    obtain ⟨hmem, hle⟩ := mathMax_spec _ m hmax
    have hm := hkeys.1 m hmem
    have hexact : roundToDouble (m + 1) = m + 1 :=
      roundToDouble_exact _ (by omega) (by push_cast at hm; omega)
    have hfresh : getKey s.groupedLists (m + 1) = none := by
      rw [getKey_eq_none_iff]
      intro hin
      have := hle _ hin
      omega
    simp only [handleUpdate, hmax, hexact, Except.ok.injEq] at h
    subst h
    refine ⟨?_, ?_, ?_⟩
    · simp only [State.allIds, groupingIds_setKey_of_absent _ _ _ hfresh, map_id_relabel,
        List.map_nil, List.append_nil]
      exact List.Perm.refl _
    · intro k hk
      rcases mem_objectKeys_setKey _ _ _ _ hk with hk | hk
      · have := hkeys.1 k hk
        push_cast at this
        omega
      · rw [hk]
        push_cast at hm
        omega
    · intro d hd
      cases hd

theorem conserve_runMoves (actions : List Action) (s s1 : State)
    (hnd : s.allIds.Nodup) (hkeys : KeysWithin (commitCount actions) s)
    (hrun : runMoves actions s = some s1) :
    List.Perm s1.allIds s.allIds := by
  induction actions generalizing s with
  | nil =>
    simp only [runMoves, Option.some.injEq] at hrun
    subst hrun
    exact List.Perm.refl _
  | cons a rest ih =>
    simp only [runMoves] at hrun
    by_cases hr : isMoveOrCommit a s = true
    · simp only [hr, if_true] at hrun
      cases hs : step a s with
      | none => simp [hs] at hrun
      | some s2 =>
        simp only [hs] at hrun
        have hstep : List.Perm s2.allIds s.allIds ∧ KeysWithin (commitCount rest) s2 := by
          cases a with
          | toggleSelection n => simp [isMoveOrCommit] at hr
          | startMerge => simp [isMoveOrCommit] at hr
          | cancel response => simp [isMoveOrCommit] at hr
          | moveToDraft item idx =>
            exact conserve_moveToDraft item idx _ s s2 hnd hkeys hr (toOption_eq_some hs)
          | moveFromDraft item =>
            exact conserve_moveFromDraft item _ s s2 hnd hkeys hr (toOption_eq_some hs)
          | commit => exact conserve_handleUpdate _ s s2 hkeys (toOption_eq_some hs)
        obtain ⟨hp, hkeys2⟩ := hstep
        exact (ih s2 (hp.nodup_iff.2 hnd) hkeys2 hrun).trans hp
    · simp [hr] at hrun

/-- A rendered move never raises a fault, and a commit raises none on a non-empty
grouping: the sequences of `runMoves` stop only where a control is not rendered
or where a commit meets a grouping without keys. -/
theorem step_of_rendered (a : Action) (s : State) (hprov : DraftProvenance s)
    (hr : isMoveOrCommit a s = true) (hne : a = Action.commit → s.groupedLists ≠ []) :
    ∃ s1, step a s = some s1 := by
  cases a with
  | toggleSelection n => simp [isMoveOrCommit] at hr
  | startMerge => simp [isMoveOrCommit] at hr
  | cancel response => simp [isMoveOrCommit] at hr
  | moveToDraft item idx =>
    simp only [isMoveOrCommit, rendersToDraft] at hr
    cases hsel : s.selectedLists[idx]? with
    | none => simp [hsel] at hr
    | some ln =>
      cases hg : getKey s.groupedLists ln with
      | none => simp [hsel, hg] at hr
      | some l => exact ⟨_, by simp only [step, moveItemToNewList, hsel, hg]; rfl⟩
  | moveFromDraft item =>
    simp only [isMoveOrCommit, rendersFromDraft, decide_eq_true_eq] at hr
    obtain ⟨ln, hln⟩ := hprov item hr
    exact ⟨_, by simp only [step, moveItemFromNewList, hln]; rfl⟩
  | commit =>
    cases hmax : mathMax (objectKeys s.groupedLists) with
    | none =>
      have hnil := (mathMax_eq_none_iff _).1 hmax
      simp only [objectKeys, List.map_eq_nil_iff] at hnil
      exact absurd hnil (hne rfl)
    | some m => exact ⟨_, by simp only [step, handleUpdate, hmax]; rfl⟩

/-- C1, as the code violates it, in two ways.  A move to the draft of an item that is
not in the source list duplicates it: from the lists 1 = A, B and 2 = C, moving
C for slot 0 gives the identities 1, 2, 3, 3.  And with the list numbers 1 and
2^53, moving A out of its list and committing writes the draft under the
existing key 2^53, so the item D of that list is dropped: the identities 1, 4
become 1. -/
theorem conservation_fails :
    exampleMerging.newList = [] ∧
    exampleMerging.allIds = [1, 2, 3] ∧
    (∃ s1, run [Action.moveToDraft itemC 0] exampleMerging = some s1 ∧
      s1.allIds = [1, 2, 3, 3] ∧ ¬ List.Perm s1.allIds exampleMerging.allIds) ∧
    exampleUnsafe.newList = [] ∧
    exampleUnsafe.allIds = [1, 4] ∧
    (∃ s2, runMoves [Action.moveToDraft itemA 0, Action.commit] exampleUnsafe = some s2 ∧
      s2.allIds = [1] ∧ ¬ List.Perm s2.allIds exampleUnsafe.allIds) := by
  refine ⟨rfl, rfl, ⟨_, rfl, rfl, ?_⟩, rfl, rfl, ⟨_, rfl, rfl, ?_⟩⟩
  · intro hp
    have := hp.length_eq
    revert this
    decide
  · intro hp
    have := hp.length_eq
    revert this
    decide

/-- C1, amended: from a state with pairwise distinct item identities and an empty
draft, take any sequence of moves to the draft, moves back and commits in which
every move is raised from a rendered control (a move to the draft for an item of
the list under `selectedLists[slot]`, a move back for an item of the draft),
every commit meets a non-empty grouping, and the list numbers stay safe
integers (each list number is above -2^53 and, with the number of commits of the
sequence added, at most 2^53).  It leaves the same multiset of item identities
across the lists of the grouping and the draft as at the start: the identities
after the sequence are a rearrangement of those before it and are still
pairwise distinct; when the start is the state left by a load they are a
rearrangement of the identities of the source items. -/
theorem conservation (actions : List Action) (s0 s : State)
    (hdraft : s0.newList = []) (hnd : s0.allIds.Nodup)
    (hsafe : ∀ k ∈ objectKeys s0.groupedLists,
      -9007199254740992 < k ∧ k + commitCount actions ≤ 9007199254740992)
    (hrun : runMoves actions s0 = some s) :
    List.Perm s.allIds s0.allIds ∧
    s.allIds.Nodup ∧
    (∀ i, s.allIds.count i = (groupingIds s0.groupedLists).count i) ∧
    (∀ lists sInit, s0 = fetchLists (some lists) sInit →
      List.Perm s.allIds (lists.map Item.id)) := by
  have hkeys : KeysWithin (commitCount actions) s0 := by
    refine ⟨hsafe, ?_⟩
    intro d hd
    rw [hdraft] at hd
    cases hd
  have hp := conserve_runMoves actions s0 s hnd hkeys hrun
  refine ⟨hp, hp.nodup_iff.2 hnd, fun i => ?_, fun lists sInit hload => ?_⟩
  · rw [hp.count_eq i]
    simp [State.allIds, hdraft]
  · refine hp.trans ?_
    have hd : s0.newList = [] := hdraft
    have hg : s0.groupedLists = groupBy lists := by rw [hload]; rfl
    simp only [State.allIds, hd, hg, List.map_nil, List.append_nil]
    have := groupingIds_foldl_groupByStep lists []
    simpa [groupBy, groupingIds] using this

/-- C1 amended, on a run from the loaded lists 1 = A, B and 2 = C: A and C to the
draft, C back, B to the draft, commit. -/
theorem conservation_witness :
    runMoves
      [Action.moveToDraft itemA 0, Action.moveToDraft itemC 1, Action.moveFromDraft stagedC,
       Action.moveToDraft itemB 0, Action.commit] exampleMerging
      = some { exampleMerging with
               groupedLists :=
                 [(1, []), (2, [stagedC]),
                  (3, [{ itemA with list_number := 3 }, { itemB with list_number := 3 }])],
               isCreatingList := false, selectedLists := [], newList := [] } ∧
    exampleMerging.allIds = [1, 2, 3] ∧
    List.Perm
      ({ exampleMerging with
         groupedLists :=
           [(1, []), (2, [stagedC]),
            (3, [{ itemA with list_number := 3 }, { itemB with list_number := 3 }])],
         isCreatingList := false, selectedLists := [], newList := [] } : State).allIds
      exampleMerging.allIds :=
  ⟨rfl, rfl,
   (conservation
      [Action.moveToDraft itemA 0, Action.moveToDraft itemC 1, Action.moveFromDraft stagedC,
       Action.moveToDraft itemB 0, Action.commit]
      exampleMerging _ rfl (by decide) (by decide) rfl).1⟩

end ListCreation
